import Mathlib

/-!
Verification development for the ashby plot generator.

The Go source is shallowly embedded: times are integers of seconds since the
Unix epoch (UTC), Go integers are Lean `Int`, Go `float64` values are rationals
(all values reached by the claims are exactly representable), fallible Go
functions return `Except String`.  Definitions mirror the corresponding Go
functions; doc comments name the function embedded.
-/

namespace Ashby

/-! ## Go time model

A Go `time.Time` is modelled as the number of seconds since the Unix epoch
(UTC, second resolution; no claim depends on sub-second precision or
locations).  `time.Time.Truncate` rounds down relative to Go's zero time
(January 1, year 1, 00:00:00 UTC), which is `goZeroOffset` seconds before the
Unix epoch. -/

/-- Seconds from Go's zero time (Jan 1, year 1 UTC) to the Unix epoch:
(1969*365 + 1969/4 - 1969/100 + 1969/400) * 86400. -/
def goZeroOffset : Int := 62135596800

/-- Embedding of Go `time.Time.Truncate (d seconds)`: subtract the remainder of
the absolute time (seconds since Go's zero time) modulo `d`. -/
def goTruncate (d : Int) (t : Int) : Int :=
  t - (t + goZeroOffset) % d

/-- Convert days since the Unix epoch to a proleptic-Gregorian civil date
(year, month, day), as Go's `time` package does when formatting. -/
def civilFromDays (z0 : Int) : Int × Int × Int :=
  let z := z0 + 719468
  let era := z.ediv 146097
  let doe := z - era * 146097
  let yoe := (doe - doe.ediv 1460 + doe.ediv 36524 - doe.ediv 146096).ediv 365
  let y := yoe + era * 400
  let doy := doe - (365 * yoe + yoe.ediv 4 - yoe.ediv 100)
  let mp := (5 * doy + 2).ediv 153
  let d := doy - (153 * mp + 2).ediv 5 + 1
  let m := mp + (if mp < 10 then 3 else -9)
  (y + (if m ≤ 2 then 1 else 0), m, d)

/-- Inverse of `civilFromDays`: days since the Unix epoch of a civil date. -/
def daysFromCivil (y m d : Int) : Int :=
  let y' := y - (if m ≤ 2 then 1 else 0)
  let era := y'.ediv 400
  let yoe := y' - era * 400
  let doy := (153 * (m + (if 2 < m then -3 else 9)) + 2).ediv 5 + d - 1
  let doe := yoe * 365 + yoe.ediv 4 - yoe.ediv 100 + doy
  era * 146097 + doe - 719468

/-- Seconds since the Unix epoch of a UTC civil date and time. -/
def mkUTC (y m d hh mi ss : Int) : Int :=
  daysFromCivil y m d * 86400 + hh * 3600 + mi * 60 + ss

/-- Day component count of a time: days since the Unix epoch (floor). -/
def daysOf (t : Int) : Int := t.ediv 86400

/-- Second of day of a time, in `[0, 86400)`. -/
def secondOfDay (t : Int) : Int := t.emod 86400

/-- Two-digit zero padded decimal, as Go's `"01"`, `"02"`, `"15"`, `"04"`,
`"05"` layout components. -/
def pad2 (n : Int) : String :=
  if n < 10 then "0" ++ toString n else toString n

/-- Four-digit zero padded decimal, as Go's `"2006"` layout component. -/
def pad4 (n : Int) : String :=
  if n < 10 then "000" ++ toString n
  else if n < 100 then "00" ++ toString n
  else if n < 1000 then "0" ++ toString n
  else toString n

/-- Format a time with Go layout `"2006/01/02"` (UTC). -/
def formatYMD (t : Int) : String :=
  let c := civilFromDays (daysOf t)
  pad4 c.1 ++ "/" ++ pad2 c.2.1 ++ "/" ++ pad2 c.2.2

/-- Format a time with Go layout `"2006/01/02/15"` (UTC). -/
def formatYMDH (t : Int) : String :=
  formatYMD t ++ "/" ++ pad2 ((secondOfDay t).ediv 3600)

/-- Format a time with Go layout `time.RFC3339` in UTC:
`"2006-01-02T15:04:05Z"`. -/
def rfc3339String (t : Int) : String :=
  let c := civilFromDays (daysOf t)
  let s := secondOfDay t
  pad4 c.1 ++ "-" ++ pad2 c.2.1 ++ "-" ++ pad2 c.2.2 ++ "T" ++
    pad2 (s.ediv 3600) ++ ":" ++ pad2 ((s.emod 3600).ediv 60) ++ ":" ++
    pad2 (s.emod 60) ++ "Z"

/-- Format a time as Go's `time.Time.String` does for a second-resolution UTC
time: `"2006-01-02 15:04:05 +0000 UTC"`.  This is what `fmt.Sprint` produces
for a `time.Time` value. -/
def goTimeString (t : Int) : String :=
  let c := civilFromDays (daysOf t)
  let s := secondOfDay t
  pad4 c.1 ++ "-" ++ pad2 c.2.1 ++ "-" ++ pad2 c.2.2 ++ " " ++
    pad2 (s.ediv 3600) ++ ":" ++ pad2 ((s.emod 3600).ediv 60) ++ ":" ++
    pad2 (s.emod 60) ++ " +0000 UTC"

/-! ## Plot frequency and the Organizer (`postgres.go`) -/

/-- The `PlotFrequency` constants of `part_000`.  The Go type is a string;
only the three declared constants are meaningful (every other value panics in
`Truncate` and is warned about in the `Organizer`), so the embedding uses a
closed enumeration. -/
inductive PlotFrequency where
  | weekly
  | daily
  | hourly
deriving DecidableEq, Repr

/-- Embedding of `PlotFrequency.Truncate` (`part_000`): weekly truncates to a
multiple of 7*24h, daily to 24h, hourly to 1h, all relative to Go's zero
time. -/
def PlotFrequency.truncate (f : PlotFrequency) (t : Int) : Int :=
  match f with
  | .weekly => goTruncate (7 * 24 * 3600) t
  | .daily => goTruncate (24 * 3600) t
  | .hourly => goTruncate 3600 t

/-- Embedding of `Organizer.Filename` (`postgres.go`): the canonical dated
path.  `filepath.Join` is modelled as interposing `"/"`, which agrees with Go
for the clean relative components produced here. -/
def organizerFilename (base : String) (f : PlotFrequency) (name : String)
    (basisTime : Int) : String :=
  let dated :=
    match f with
    | .weekly => formatYMD (f.truncate basisTime)
    | .daily => formatYMD (f.truncate basisTime)
    | .hourly => formatYMDH (f.truncate basisTime)
  base ++ "/" ++ dated ++ "/" ++ name ++ ".json"

/-- Embedding of `Organizer.LatestFilename` (`postgres.go`). -/
def organizerLatestFilename (base : String) (name : String) : String :=
  base ++ "/" ++ "latest" ++ "/" ++ name ++ ".json"

/-- Go's `sort.Strings`: ascending lexicographic sort.  Duplicates of a string
are indistinguishable, so any sorting algorithm computes the same list. -/
def sortStrings (xs : List String) : List String :=
  List.insertionSort (fun a b => a ≤ b) xs

/-- Embedding of `Organizer.IsLatest` (`postgres.go`): `existing` is the glob
result of already-present dated paths for the name; the candidate path is
appended, the list is sorted, and the candidate must sort last. -/
def organizerIsLatest (existing : List String) (fname : String) : Bool :=
  let all := sortStrings (existing ++ [fname])
  all.getLastD "" == fname

/-! ## Field values

Dataset field values are Go `any` values.  The dynamic types that occur in the
program are closed: the embedding keeps Go `int` and `int64` distinct because
`diff2` dispatches on them separately.  Go `float64` is modelled by `Rat`;
every floating value reached by a claim is exactly representable, and no claim
depends on rounding. -/

/-- A Go `any` value held in a dataset field. -/
inductive GoVal where
  /-- Go `nil` (an absent field). -/
  | null
  /-- A Go `bool`. -/
  | bool (b : Bool)
  /-- A Go `int`. -/
  | int (n : Int)
  /-- A Go `int64`. -/
  | int64 (n : Int)
  /-- A Go `float64`, modelled exactly. -/
  | float (q : Rat)
  /-- A Go `string`. -/
  | str (s : String)
  /-- A Go `time.Time` (seconds since the Unix epoch, UTC). -/
  | time (t : Int)
  /-- A `pgtype.Interval` of the given microseconds. -/
  | interval (micros : Int)
  /-- A Go `error` with its message. -/
  | err (msg : String)
deriving DecidableEq, Repr

/-- The Go `%T` type name of a value (used in `diff2`'s error message). -/
def GoVal.typeName : GoVal → String
  | .null => "<nil>"
  | .bool _ => "bool"
  | .int _ => "int"
  | .int64 _ => "int64"
  | .float _ => "float64"
  | .str _ => "string"
  | .time _ => "time.Time"
  | .interval _ => "pgtype.Interval"
  | .err _ => "*errors.errorString"

/-- Go `fmt.Sprint` of a value.  Exact for the cases any claim exercises
(strings, integers, times, bools, nil, errors); the `float64` and
`pgtype.Interval` renderings are stand-ins never reached by a claim. -/
def goSprint : GoVal → String
  | .null => "<nil>"
  | .bool b => if b then "true" else "false"
  | .int n => toString n
  | .int64 n => toString n
  | .float q => toString q
  | .str s => s
  | .time t => goTimeString t
  | .interval m => toString m
  | .err msg => msg

/-- Embedding of `stringify` (`part_001`): the canonical text projection used
for join keys.  Strings pass through, times format as RFC3339 in UTC,
everything else goes through `fmt.Sprint`. -/
def stringify : GoVal → String
  | .str s => s
  | .time t => rfc3339String t
  | v => goSprint v

/-- Go equality between an `any` value and a `string` (the comparison
`ds.Field(s.GroupField) != s.GroupValue` in `seriesTraces`, negated): an
interface value equals a string exactly when its dynamic type is `string` and
the contents agree. -/
def goEqString (v : GoVal) (s : String) : Bool :=
  match v with
  | .str s2 => s2 == s
  | _ => false

/-- Embedding of `diff2` (`part_001`): numeric subtraction over the explicitly
enumerated operand type pairs; any other pair yields the `cannot calculate
diff` error.  The case structure mirrors the source exactly -- in particular
`float64` paired with Go `int` is not enumerated there. -/
def diff2 (x y : GoVal) : Except String GoVal :=
  let diff : Option GoVal :=
    match x with
    | .float tx =>
      match y with
      | .float ty => some (.float (tx - ty))
      | .int64 ty => some (.float (tx - (ty : Rat)))
      | _ => none
    | .int64 tx =>
      match y with
      | .int64 ty => some (.int64 (tx - ty))
      | .int ty => some (.int64 (tx - ty))
      | .float ty => some (.float ((tx : Rat) - ty))
      | _ => none
    | .int tx =>
      match y with
      | .int ty => some (.int (tx - ty))
      | .int64 ty => some (.int64 (tx - ty))
      | .float ty => some (.float ((tx : Rat) - ty))
      | _ => none
    | _ => none
  match diff with
  | none => .error ("cannot calculate diff of " ++ x.typeName ++ " and " ++ y.typeName)
  | some d => .ok d

/-- Embedding of `normalizeValue` (`part_003`): `pgtype.Interval` becomes its
length in seconds as a `float64`, times become their RFC3339 text, everything
else passes through. -/
def normalizeValue : GoVal → GoVal
  | .interval m => .float ((m : Rat) / 1000000)
  | .time t => .str (rfc3339String t)
  | v => v

/-! ## Tabular datasets

Modelled from the spec: the `StaticDataSet` implementation (the repository
file holding it is not under `src/`; `src/` holds only its interface
`DataSet`, in `part_000`, and its callers).  Per spec section 4.1 the dataset
is a materialized, resettable forward cursor: `Next` advances and reports
whether a row is available, `Field` reads a field of the current row (absent
fields read as null), `ResetIterator` rewinds to the start without
re-querying, and `Err` surfaces an error sentinel at the end of iteration.
The data is columnar, mirroring `NewStaticDataSet(map[string][]any)`. -/

/-- Modelled from the spec: a materialized tabular dataset with a forward
cursor.  `pos = 0` means the cursor is before the first row; after a
successful `Next` the current row is `pos - 1`. -/
structure StaticDataSet where
  /-- Columns: field name to the ordered values of that field. -/
  data : List (String × List GoVal)
  /-- Cursor: number of `Next` calls made so far. -/
  pos : Nat := 0
  /-- Error sentinel reported by `Err()` at the end of iteration. -/
  iterErr : Option String := none
deriving DecidableEq, Repr

/-- `NewStaticDataSet` (`part_001`, `postgres.go`): wrap columnar data with the
cursor at the start. -/
def NewStaticDataSet (data : List (String × List GoVal)) : StaticDataSet :=
  { data := data }

/-- Number of rows: the length of the shortest column (columns are parallel
and equal-length in every dataset the program builds). -/
def StaticDataSet.rowCount (d : StaticDataSet) : Nat :=
  match d.data with
  | [] => 0
  | c :: cs => cs.foldl (fun n c2 => min n c2.2.length) c.2.length

/-- `ResetIterator`: rewind to the start; the materialized data is kept. -/
def StaticDataSet.reset (d : StaticDataSet) : StaticDataSet :=
  { d with pos := 0 }

/-- `Next`: advance the cursor, reporting whether a row is available. -/
def StaticDataSet.next (d : StaticDataSet) : StaticDataSet × Bool :=
  let d' := { d with pos := d.pos + 1 }
  (d', d.pos < d.rowCount)

/-- `Field` at an explicit row index: absent columns and out-of-range reads
give null. -/
def StaticDataSet.fieldAt (d : StaticDataSet) (i : Nat) (name : String) : GoVal :=
  match d.data.find? (fun c => c.1 == name) with
  | none => .null
  | some c => c.2.getD i .null

/-- `Field`: read a field of the current row. -/
def StaticDataSet.field (d : StaticDataSet) (name : String) : GoVal :=
  d.fieldAt (d.pos - 1) name

/-- A single row materialized as an association list, for reasoning about full
scans. -/
def StaticDataSet.rowAt (d : StaticDataSet) (i : Nat) : List (String × GoVal) :=
  d.data.map (fun c => (c.1, c.2.getD i .null))

/-- All rows of a dataset in order; a full scan from `ResetIterator` visits
exactly these. -/
def StaticDataSet.rows (d : StaticDataSet) : List (List (String × GoVal)) :=
  (List.range d.rowCount).map d.rowAt

/-- Field lookup in a materialized row (agrees with `field` during a scan). -/
def rowField (r : List (String × GoVal)) (name : String) : GoVal :=
  match r.find? (fun c => c.1 == name) with
  | none => .null
  | some c => c.2

/-! ## Compute engine (`part_001`) -/

/-- `ComputeDataSetDef` (`part_000`): one side of a computed dataset. -/
structure ComputeDataSetDef where
  dataSet : String := ""
  joinField : String
  valueField : String
deriving DecidableEq, Repr

/-- `ComputeInput` (`part_001`). -/
structure ComputeInput where
  def_ : ComputeDataSetDef
  dataSet : StaticDataSet
deriving Repr

/-- Append a value to a column of a columnar map, creating the column if
missing (Go `data[k] = append(data[k], v)`; the assoc list keeps first-insert
order, which is unobservable through the Go map). -/
def goMapAppend (m : List (String × List GoVal)) (k : String) (v : GoVal) :
    List (String × List GoVal) :=
  match m with
  | [] => [(k, [v])]
  | c :: cs => if c.1 == k then (c.1, c.2 ++ [v]) :: cs else c :: goMapAppend cs k v

/-- Overwriting insert into a string-keyed map (Go `rows2[k] = v`,
last-write-wins). -/
def goMapPut (m : List (String × GoVal)) (k : String) (v : GoVal) :
    List (String × GoVal) :=
  match m with
  | [] => [(k, v)]
  | c :: cs => if c.1 == k then (k, v) :: cs else c :: goMapPut cs k v

/-- Map lookup (Go `v, ok := m[k]`). -/
def goMapGet (m : List (String × GoVal)) (k : String) : Option GoVal :=
  (m.find? (fun c => c.1 == k)).map (·.2)

/-- The Go type-assertion test `_, ok := v.(error)`. -/
def GoVal.isErr : GoVal → Bool
  | .err _ => true
  | _ => false

/-- One right-side row of `ComputeBinaryPredicate`: record the value under the
canonical text of the join key (last write wins), aborting if the join or
value field reads as an error.  Error strings mirror the source without the
quoted names. -/
def materializeRightStep (def2 : ComputeDataSetDef)
    (m : List (String × GoVal)) (r : List (String × GoVal)) :
    Except String (List (String × GoVal)) :=
  let join := rowField r def2.joinField
  if join.isErr then
    .error "did not get join field value from dataset"
  else
    let value := rowField r def2.valueField
    if value.isErr then
      .error "did not get value field value from dataset"
    else
      .ok (goMapPut m (stringify join) value)

/-- Materialize the right side of `ComputeBinaryPredicate`: one scan from the
start building the canonical-key map. -/
def materializeRight (in2 : ComputeInput) :
    Except String (List (String × GoVal)) :=
  (in2.dataSet.rows).foldlM (materializeRightStep in2.def_) []

/-- One left-side row of `ComputeBinaryPredicate`: look the join key up in the
materialized right map; a miss skips the row (not an error), a hit applies the
predicate and appends `(key, result)` to the two output columns. -/
def streamLeftStep (pred : GoVal → GoVal → Except String GoVal)
    (def1 : ComputeDataSetDef) (rows2 : List (String × GoVal))
    (data : List (String × List GoVal)) (r : List (String × GoVal)) :
    Except String (List (String × List GoVal)) :=
  let join := rowField r def1.joinField
  if join.isErr then
    .error "did not get join field value from dataset"
  else
    match goMapGet rows2 (stringify join) with
    | Option.none => .ok data
    | some value2 =>
      let value1 := rowField r def1.valueField
      if value1.isErr then
        .error "did not get value field value from dataset"
      else
        match pred value1 value2 with
        | .error e => .error e
        | .ok res => .ok (goMapAppend (goMapAppend data "field" join) "value" res)

/-- Stream the left side of `ComputeBinaryPredicate` once. -/
def streamLeft (pred : GoVal → GoVal → Except String GoVal)
    (in1 : ComputeInput) (rows2 : List (String × GoVal)) :
    Except String (List (String × List GoVal)) :=
  (in1.dataSet.rows).foldlM (streamLeftStep pred in1.def_ rows2) []

/-- Embedding of `ComputeBinaryPredicate` (`part_001`): reset both sides,
materialize the right side into a canonical-text-key map, stream the left side
once, and wrap the accumulated two output columns as a new static dataset.  An
iteration error sentinel on either side aborts the derive. -/
def ComputeBinaryPredicate (pred : GoVal → GoVal → Except String GoVal)
    (in1 in2 : ComputeInput) : Except String StaticDataSet :=
  let in1 := { in1 with dataSet := in1.dataSet.reset }
  let in2 := { in2 with dataSet := in2.dataSet.reset }
  match materializeRight in2 with
  | .error e => .error e
  | .ok rows2 =>
    if in2.dataSet.iterErr.isSome then
      .error "dataset iteration ended with an error"
    else
      match streamLeft pred in1 rows2 with
      | .error e => .error e
      | .ok data =>
        if in1.dataSet.iterErr.isSome then
          .error "dataset iteration ended with an error"
        else
          .ok (NewStaticDataSet data)

/-! ## Declarative chart element definitions (`part_000`) -/

/-- `SeriesType` (`part_000`). -/
inductive SeriesType where
  | bar
  | hbar
  | line
  | box
  | hbox
deriving DecidableEq, Repr

/-- `MarkerType` (`part_000`): empty string means no marker. -/
inductive MarkerType where
  | none
  | circle
  | square
  | diamond
  | triangle
  | hexagon
deriving DecidableEq, Repr

/-- The plotly symbol text of a marker type. -/
def MarkerType.symbol : MarkerType → String
  | .none => ""
  | .circle => "circle"
  | .square => "square"
  | .diamond => "diamond"
  | .triangle => "triangle"
  | .hexagon => "hexagon"

/-- `FillType` (`part_000`): empty string or `tozero`. -/
inductive FillType where
  | none
  | tozero
deriving DecidableEq, Repr

/-- `SeriesDef` (`part_000`). -/
structure SeriesDef where
  type : SeriesType
  name : String := ""
  color : String := ""
  marker : MarkerType := .none
  fill : FillType := .none
  dataSet : String := ""
  labels : String := ""
  values : String := ""
  groupField : String := ""
  groupValue : String := ""
  hoverTemplate : String := ""
  /-- Declaration-order index, set by `parsePlotDef`. -/
  order : Int := 0
deriving DecidableEq, Repr

/-- `ScalarType` (`part_000`): only `number` is declared; `parsePlotDef`
rejects every other string, so the enumeration is closed. -/
inductive ScalarType where
  | number
deriving DecidableEq, Repr

/-- `DeltaType` (`part_000`): empty string (`noDelta`) or `relative`. -/
inductive DeltaType where
  | noDelta
  | relative
deriving DecidableEq, Repr

/-- `ScalarDef` (`part_000`). -/
structure ScalarDef where
  type : ScalarType := .number
  name : String := ""
  color : String := ""
  dataSet : String := ""
  value : String := ""
  valueSuffix : String := ""
  valuePrefix : String := ""
  deltaDataSet : String := ""
  deltaValue : String := ""
  deltaType : DeltaType := .noDelta
  increaseColor : String := ""
  decreaseColor : String := ""
deriving DecidableEq, Repr

/-- The color table slice of `PlotConfig` (`part_000`). -/
structure PlotConfig where
  defaultColor : String := ""
  colors : List (String × String) := []
deriving DecidableEq, Repr

/-- Embedding of `PlotConfig.MaybeLookupColor` (`part_000`): resolve a name
through the color table, falling through to the literal name when
unregistered (the empty-name shortcut is commented out in the source). -/
def PlotConfig.maybeLookupColor (cfg : PlotConfig) (name : String) : String :=
  match cfg.colors.find? (fun c => c.1 == name) with
  | some c => c.2
  | none => name

/-! ## Series pass (`part_003`, `seriesTraces`)

The pass groups definitions by backing dataset and scans each dataset once.
The embedding covers the per-dataset scan (`seriesTracesForDataSet`); the
outer loop iterates a Go map, whose order is irrelevant to any claim. -/

/-- `LabeledSeries` (`part_003`): a display-name-keyed accumulator; `sdef` is
the definition that first created it. -/
structure LabeledSeries where
  name : String
  sdef : SeriesDef
  labels : List GoVal := []
  values : List GoVal := []
deriving DecidableEq, Repr

/-- The display name a series definition produces for a row, or `none` when
the row is filtered out: wildcard grouping derives the name from the group
field's printed value, a fixed group value keeps rows whose raw field value
Go-equals the (string) group value, and otherwise the name is fixed. -/
def seriesRowName (s : SeriesDef) (r : List (String × GoVal)) : Option String :=
  if s.groupField ≠ "" then
    if s.groupValue == "*" then
      if s.name ≠ "" then
        some (s.name ++ "-" ++ goSprint (rowField r s.groupField))
      else
        some (goSprint (rowField r s.groupField))
    else if goEqString (rowField r s.groupField) s.groupValue then
      some s.name
    else
      none
  else
    some s.name

/-- Append a row's label/value to the accumulator named `n`, creating it (with
the current definition recorded) when absent.  Mirrors the `dataIndex` map and
`data` slice of the source: accumulators are keyed by display name alone and
kept in creation order. -/
def addToSeries (accs : List LabeledSeries) (n : String) (s : SeriesDef)
    (r : List (String × GoVal)) : List LabeledSeries :=
  match accs with
  | [] =>
    [{ name := n, sdef := s,
       labels := if s.labels ≠ "" then [normalizeValue (rowField r s.labels)] else [],
       values := [normalizeValue (rowField r s.values)] }]
  | a :: rest =>
    if a.name == n then
      { a with
        labels := if s.labels ≠ "" then a.labels ++ [normalizeValue (rowField r s.labels)] else a.labels,
        values := a.values ++ [normalizeValue (rowField r s.values)] } :: rest
    else
      a :: addToSeries rest n s r

/-- Process one row for one series definition. -/
def seriesStep (r : List (String × GoVal)) (accs : List LabeledSeries)
    (s : SeriesDef) : List LabeledSeries :=
  match seriesRowName s r with
  | none => accs
  | some n => addToSeries accs n s r

/-- Process one row for every series definition referencing the dataset, in
declaration order. -/
def seriesRow (series : List SeriesDef) (accs : List LabeledSeries)
    (r : List (String × GoVal)) : List LabeledSeries :=
  series.foldl (seriesStep r) accs

/-- The `sort.Slice` comparator of the series pass: declaration-order index,
then display name. -/
def lsLess (a b : LabeledSeries) : Prop :=
  a.sdef.order < b.sdef.order ∨ (a.sdef.order = b.sdef.order ∧ a.name < b.name)

instance : DecidableRel lsLess := fun a b => by
  unfold lsLess; infer_instance

/-- Sort accumulators by (declaration-order index, display name).  Ties would
need two accumulators with equal names, which the name-keyed map rules out, so
any sorting algorithm computes the same list as Go's unstable `sort.Slice`. -/
def sortSeries (accs : List LabeledSeries) : List LabeledSeries :=
  List.insertionSort (fun a b => lsLess a b ∨ a = b) accs

/-- A rendered series trace: the fields of the five `grob` shapes that the
pass populates. -/
structure SeriesTrace where
  /-- plotly trace type: bar, scatter or box. -/
  type : String
  name : String
  /-- Bar orientations: v or h. -/
  orient : Option String := Option.none
  x : List GoVal := []
  y : List GoVal := []
  mode : Option String := Option.none
  fill : Option String := Option.none
  markerSymbol : Option String := Option.none
  color : Option String := Option.none
  hoverTemplate : String := ""
deriving DecidableEq, Repr

/-- Render one accumulator into a trace according to its creating definition's
shape, resolving the color through the color table (an empty resolution sets
no color). -/
def renderSeries (cfg : PlotConfig) (ls : LabeledSeries) : SeriesTrace :=
  let c := cfg.maybeLookupColor ls.sdef.color
  let color := if c ≠ "" then some c else Option.none
  match ls.sdef.type with
  | .bar =>
    { type := "bar", name := ls.name, orient := some "v",
      x := ls.labels, y := ls.values, color := color,
      hoverTemplate := ls.sdef.hoverTemplate }
  | .hbar =>
    { type := "bar", name := ls.name, orient := some "h",
      x := ls.values, y := ls.labels, color := color }
  | .line =>
    { type := "scatter", name := ls.name, x := ls.labels, y := ls.values,
      mode := some (if ls.sdef.marker ≠ .none then "lines+markers" else "lines"),
      fill := if ls.sdef.fill = .tozero then some "tozeroy" else Option.none,
      markerSymbol := if ls.sdef.marker ≠ .none then some ls.sdef.marker.symbol else Option.none,
      color := color }
  | .box =>
    { type := "box", name := ls.name, y := ls.values, color := color }
  | .hbox =>
    { type := "box", name := ls.name, x := ls.values, color := color }

/-- Embedding of the per-dataset body of `seriesTraces` (`part_003`): reset
the dataset, scan every row once feeding every definition, sort the
accumulators, and render each into one trace.  The shape switch has no
default-error case here because `SeriesType` is closed (`parsePlotDef`
rejects unknown shape strings); an iteration error aborts. -/
def seriesTracesForDataSet (cfg : PlotConfig) (ds : StaticDataSet)
    (series : List SeriesDef) : Except String (List SeriesTrace) := do
  let ds := ds.reset
  let accs := ds.rows.foldl (seriesRow series) []
  if ds.iterErr.isSome then
    throw "dataset iteration ended with an error"
  return (sortSeries accs).map (renderSeries cfg)

/-! ## Scalar pass (`part_003`, `scalarTraces`) -/

/-- Append a string to a string-list-valued map entry, creating it at the end
when absent (Go `m[k] = append(m[k], v)`; insertion order stands in for the
unobservable Go map order, and each dataset is processed independently). -/
def addUsed (m : List (String × List String)) (k : String) (v : String) :
    List (String × List String) :=
  match m with
  | [] => [(k, [v])]
  | c :: cs => if c.1 == k then (c.1, c.2 ++ [v]) :: cs else c :: addUsed cs k v

/-- First phase of `scalarTraces`: collect, per backing dataset, the fields
the scalar definitions need.  Unknown dataset names are logged and skipped;
an unknown delta dataset skips only the delta field registration. -/
def datasetFieldsUsed (registered : List String) (scalarDefs : List ScalarDef) :
    List (String × List String) :=
  scalarDefs.foldl
    (fun m s =>
      if registered.contains s.dataSet then
        let m1 := addUsed m s.dataSet s.value
        if s.deltaDataSet ≠ "" then
          if registered.contains s.deltaDataSet then
            addUsed m1 s.deltaDataSet s.deltaValue
          else
            m1
        else
          m1
      else
        m)
    []

/-- Numeric extraction of the second phase: `float64` and `int64` convert,
anything else is logged and recorded as 0. -/
def scalarFieldValue : GoVal → Rat
  | .float q => q
  | .int64 n => (n : Rat)
  | _ => 0

/-- Overwriting insert into a string-keyed rational map. -/
def putRat (m : List (String × Rat)) (k : String) (v : Rat) :
    List (String × Rat) :=
  match m with
  | [] => [(k, v)]
  | c :: cs => if c.1 == k then (k, v) :: cs else c :: putRat cs k v

/-- Second phase of `scalarTraces` for one dataset: advance the cursor by one
`Next` -- the source does not reset the iterator first -- and on success read
the needed fields of the row now under the cursor; an exhausted or erroring
dataset yields no entry. -/
def readScalarRow (ds : StaticDataSet) (fields : List String) :
    Option (List (String × Rat)) :=
  let n := ds.next
  if n.2 then
    some (fields.foldl (fun fv f => putRat fv f (scalarFieldValue (n.1.field f))) [])
  else
    Option.none

/-- The per-dataset value table built by the second phase.  Datasets are
looked up in the registry with their current cursor state. -/
def scalarDsValues (dataSets : List (String × StaticDataSet))
    (used : List (String × List String)) : List (String × List (String × Rat)) :=
  used.foldl
    (fun acc u =>
      match dataSets.find? (fun c => c.1 == u.1) with
      | Option.none => acc
      | some c =>
        match readScalarRow c.2 u.2 with
        | Option.none => acc
        | some fv => acc ++ [(u.1, fv)])
    []

/-- Lookup in the two-level value table (Go `dsValues[ds][f]`, with `ok`). -/
def dsValuesGet (dsValues : List (String × List (String × Rat)))
    (dsname f : String) : Option Rat :=
  match dsValues.find? (fun c => c.1 == dsname) with
  | Option.none => Option.none
  | some c => (c.2.find? (fun e => e.1 == f)).map (·.2)

/-- A rendered indicator trace of the scalar pass. -/
structure IndicatorTrace where
  name : String
  mode : String
  suffix : String := ""
  column : Nat
  domainLo : Rat
  domainHi : Rat
  value : Rat
  deltaReference : Option Rat := Option.none
  deltaValueformat : Option String := Option.none
  increasingColor : Option String := Option.none
  decreasingColor : Option String := Option.none
deriving DecidableEq, Repr

/-- Third phase of `scalarTraces` for one definition at declaration index
`idx`: build the indicator, skipping the definition when its value (or
configured delta value) is absent from the value table, and attaching the
relative delta with increase/decrease colors.  A configured delta whose type
is not `relative` is a fatal configuration error, as in the source. -/
def scalarTrace (cfg : PlotConfig) (dsValues : List (String × List (String × Rat)))
    (domainX : Rat) (idx : Nat) (s : ScalarDef) :
    Except String (Option IndicatorTrace) := do
  match s.type with
  | .number =>
    let base : IndicatorTrace :=
      { name := s.name, mode := "number", suffix := s.valueSuffix,
        column := idx, domainLo := domainX * idx, domainHi := domainX * (idx + 1),
        value := 0 }
    match dsValuesGet dsValues s.dataSet s.value with
    | Option.none => return Option.none
    | some v =>
      let base := { base with value := v }
      if s.deltaDataSet ≠ "" then
        match dsValuesGet dsValues s.deltaDataSet s.deltaValue with
        | Option.none => return Option.none
        | some dv =>
          match s.deltaType with
          | .relative =>
            let ic := cfg.maybeLookupColor s.increaseColor
            let dc := cfg.maybeLookupColor s.decreaseColor
            return some { base with
              mode := "number+delta",
              deltaReference := some dv,
              deltaValueformat := some ".2%",
              increasingColor := if ic ≠ "" then some ic else Option.none,
              decreasingColor := if dc ≠ "" then some dc else Option.none }
          | .noDelta => throw "unsupported delta type"
      else
        return some base

/-- The `for idx, s := range scalarDefs` loop of `scalarTraces`: emit the
indicators of the remaining definitions starting at declaration index `idx`,
keeping only the ones not skipped. -/
def scalarLoop (cfg : PlotConfig) (dsValues : List (String × List (String × Rat)))
    (domainX : Rat) (idx : Nat) : List ScalarDef → Except String (List IndicatorTrace)
  | [] => .ok []
  | s :: rest => do
    let t ← scalarTrace cfg dsValues domainX idx s
    let ts ← scalarLoop cfg dsValues domainX (idx + 1) rest
    match t with
    | some tr => return tr :: ts
    | Option.none => return ts

/-- Embedding of `scalarTraces` (`part_003`): collect the needed fields per
dataset, read one `Next` row from each referenced dataset (with whatever
cursor state it currently has), then emit one indicator per definition in
declaration order, skipping definitions whose values are missing. -/
def scalarTraces (cfg : PlotConfig) (dataSets : List (String × StaticDataSet))
    (scalarDefs : List ScalarDef) : Except String (List IndicatorTrace) :=
  let used := datasetFieldsUsed (dataSets.map (·.1)) scalarDefs
  let dsValues := scalarDsValues dataSets used
  let domainX : Rat := 1 / (scalarDefs.length : Rat)
  scalarLoop cfg dsValues domainX 0 scalarDefs

/-- The row-interleaving of two per-row projections: when two series
definitions feed one shared accumulator, each scanned row appends the first
definition's projection and then the second's. -/
def pairColumn (f g : List (String × GoVal) → GoVal) :
    List (List (String × GoVal)) → List GoVal
  | [] => []
  | r :: rest => f r :: g r :: pairColumn f g rest

/-! ## Shared helper lemmas -/

/-- An invariant preserved by every successful step of an `Except`-valued left
fold holds of every successful fold result. -/
theorem foldlM_except_inv {α β : Type} (f : β → α → Except String β) (P : β → Prop)
    (hf : ∀ b a b2, P b → f b a = .ok b2 → P b2) :
    ∀ (l : List α) (b res : β), P b → l.foldlM f b = .ok res → P res := by
  intro l
  induction l with
  | nil =>
    intro b res hb h
    simp only [List.foldlM_nil] at h
    cases h
    exact hb
  | cons a l ih =>
    intro b res hb h
    rw [List.foldlM_cons] at h
    cases hfb : f b a with
    | error e =>
      rw [hfb] at h
      simp [Bind.bind, Except.bind] at h
    | ok b2 =>
      rw [hfb] at h
      simp only [Bind.bind, Except.bind] at h
      exact ih b2 res (hf b a b2 hb hfb) h

/-- Key structure of `goMapAppend`: appending to a present key keeps the key
list, appending to an absent key adds it at the end. -/
theorem goMapAppend_map_fst (m : List (String × List GoVal)) (k : String) (v : GoVal) :
    (goMapAppend m k v).map Prod.fst =
      if k ∈ m.map Prod.fst then m.map Prod.fst else m.map Prod.fst ++ [k] := by
  induction m with
  | nil => simp [goMapAppend]
  | cons c cs ih =>
    by_cases hck : c.1 = k
    · simp [goMapAppend, hck]
    · have hne : k ≠ c.1 := fun h => hck h.symm
      by_cases hk : k ∈ cs.map Prod.fst
      · simp [goMapAppend, hck, ih, hk, hne]
      · simp [goMapAppend, hck, ih, hk, hne]

/-- In a `≤`-sorted list of strings each member is at most the last element. -/
theorem le_getLastD_of_sorted :
    ∀ (l : List String) (d : String), l.Sorted (· ≤ ·) →
      ∀ x ∈ l, x ≤ l.getLastD d := by
  intro l
  induction l with
  | nil => intro d _ x hx; cases hx
  | cons a t ih =>
    intro d hs x hx
    rw [List.getLastD_cons]
    rcases List.sorted_cons.mp hs with ⟨ha, ht⟩
    rcases List.mem_cons.mp hx with hxa | hxt
    · subst hxa
      cases t with
      | nil => simp [List.getLastD]
      | cons b t2 =>
        have hab : x ≤ b := ha b (by simp)
        have hbl : b ≤ (b :: t2).getLastD x := ih x ht b (by simp)
        exact le_trans hab hbl
    · exact ih a ht x hxt

/-- Resetting the iterator does not change the materialized rows. -/
theorem reset_rows (d : StaticDataSet) : d.reset.rows = d.rows := rfl

/-- Resetting the iterator does not change the error sentinel. -/
theorem reset_iterErr (d : StaticDataSet) : d.reset.iterErr = d.iterErr := rfl

/-! ## Claim theorems -/

/-- C1: deriving a computed dataset streams the left side once against the
fully materialized right-side map: with left join keys `[A, B, C]` and right
join keys `[B, C, D]` (and any `int64` values on both sides), the derive
succeeds and produces exactly the two rows keyed `B` and `C`, in left-scan
order, with the predicate applied to the matched values; the unmatched left
key `A` is skipped without error and the unmatched right key `D` is ignored. -/
theorem derive_left_scan_join (va vb vc wb wc wd : Int) :
    ComputeBinaryPredicate diff2
      ⟨⟨"left", "k", "v"⟩,
        NewStaticDataSet [("k", [.str "A", .str "B", .str "C"]),
                          ("v", [.int64 va, .int64 vb, .int64 vc])]⟩
      ⟨⟨"right", "k", "v"⟩,
        NewStaticDataSet [("k", [.str "B", .str "C", .str "D"]),
                          ("v", [.int64 wb, .int64 wc, .int64 wd])]⟩
    = .ok (NewStaticDataSet [("field", [.str "B", .str "C"]),
                             ("value", [.int64 (vb - wb), .int64 (vc - wc)])]) := by
  rfl

/-- C2 counterexample: `diff` applied to `5.0` as a `float64` and `2` as a Go
`int` does not return `3.0`; the `float64 x int` operand pair is not
enumerated in `diff2`, so it returns the type error. -/
theorem diff_float_int_cex :
    diff2 (.float 5) (.int 2) = .error "cannot calculate diff of float64 and int" ∧
      diff2 (.float 5) (.int 2) ≠ .ok (.float 3) := by
  constructor
  · rfl
  · intro h
    cases h

/-- C2 amended: `diff` on same-typed integers yields the integer difference;
on `float64` and `int64` (either order) it yields the exact `float64`
difference; but the `float64 x int` pair is not recognized and errors, as does
any non-numeric pair such as a string operand. -/
theorem diff_cases :
    diff2 (.int64 5) (.int64 2) = .ok (.int64 3) ∧
    diff2 (.int 5) (.int 2) = .ok (.int 3) ∧
    diff2 (.float 5) (.int64 2) = .ok (.float 3) ∧
    diff2 (.int 5) (.float 2) = .ok (.float 3) ∧
    diff2 (.float 5) (.int 2) = .error "cannot calculate diff of float64 and int" ∧
    diff2 (.str "a") (.int 2) = .error "cannot calculate diff of string and int" := by
  refine ⟨rfl, rfl, ?_, ?_, rfl, rfl⟩
  · norm_num [diff2]
  · norm_num [diff2]

/-- C8: the canonical path layout: a daily artifact named `x` with basis time
2023-05-08T10:00:00Z lands at `base/2023/05/08/x.json`, and an hourly one at
`base/2023/05/08/10/x.json`. -/
theorem canonical_path_daily_hourly :
    organizerFilename "base" .daily "x" (mkUTC 2023 5 8 10 0 0) =
      "base/2023/05/08/x.json" ∧
    organizerFilename "base" .hourly "x" (mkUTC 2023 5 8 10 0 0) =
      "base/2023/05/08/10/x.json" := by
  constructor
  · rfl
  · rfl

/-- C7 counterexample: at basis time 2023-05-09T00:00:00Z (a Tuesday) the
weekly canonical path truncates to the enclosing week's Monday 2023-05-08
while the daily path keeps 2023-05-09, so the two paths differ for the same
name and basis time. -/
theorem weekly_vs_daily_path_cex :
    organizerFilename "base" .weekly "x" (mkUTC 2023 5 9 0 0 0) =
      "base/2023/05/08/x.json" ∧
    organizerFilename "base" .daily "x" (mkUTC 2023 5 9 0 0 0) =
      "base/2023/05/09/x.json" ∧
    organizerFilename "base" .weekly "x" (mkUTC 2023 5 9 0 0 0) ≠
      organizerFilename "base" .daily "x" (mkUTC 2023 5 9 0 0 0) := by
  refine ⟨rfl, rfl, ?_⟩
  intro h
  rw [show organizerFilename "base" .weekly "x" (mkUTC 2023 5 9 0 0 0) =
      "base/2023/05/08/x.json" from rfl,
    show organizerFilename "base" .daily "x" (mkUTC 2023 5 9 0 0 0) =
      "base/2023/05/09/x.json" from rfl] at h
  simp at h

/-- Truncating a week-truncated time to the day changes nothing: a weekly
truncation lands on a multiple of 7 days from Go's zero time, which is in
particular a day boundary. -/
theorem truncate_daily_of_weekly (t : Int) :
    PlotFrequency.truncate .daily (PlotFrequency.truncate .weekly t) =
      PlotFrequency.truncate .weekly t := by
  simp only [PlotFrequency.truncate, goTruncate, goZeroOffset]
  norm_num
  omega

/-- C7 amended: weekly and daily canonical paths share the day-grained
`year/month/day/name.json` layout, but weekly truncates the basis time to the
week boundary (Monday 00:00 UTC), not the day: for every name and basis time
the weekly path equals the daily path taken at the week-truncated basis time
(so the two coincide only when the basis time's day already starts the
week). -/
theorem weekly_path_is_daily_of_week_start (base name : String) (t : Int) :
    organizerFilename base .weekly name t =
      organizerFilename base .daily name (PlotFrequency.truncate .weekly t) := by
  simp [organizerFilename, truncate_daily_of_weekly]

/-- C4: the scalar pass reads the row under the dataset's current cursor, not
the first row: with a one-row backing dataset whose cursor was already
exhausted by an earlier pass, `scalarTraces` finds no row and drops the
scalar, while the same dataset with the cursor at the start yields the
indicator for the first row's value.  This contradicts the documented
behavior (the source logs `reading first row of dataset`, and the sibling
series/table passes reset the iterator before scanning). -/
theorem scalar_reads_cursor_not_first_row :
    scalarTraces {} [("d", { data := [("v", [.int64 7])], pos := 2 })]
      [{ name := "s", dataSet := "d", value := "v" }] = .ok [] ∧
    scalarTraces {} [("d", { data := [("v", [.int64 7])], pos := 0 })]
      [{ name := "s", dataSet := "d", value := "v" }] =
      .ok [{ name := "s", mode := "number", column := 0,
             domainLo := 0, domainHi := 1, value := 7 }] := by
  constructor
  · norm_num [scalarTraces, datasetFieldsUsed, addUsed, scalarDsValues, readScalarRow,
      StaticDataSet.next, StaticDataSet.rowCount, StaticDataSet.field, StaticDataSet.fieldAt,
      scalarFieldValue, putRat, dsValuesGet, scalarTrace, scalarLoop]
  · norm_num [scalarTraces, datasetFieldsUsed, addUsed, scalarDsValues, readScalarRow,
      StaticDataSet.next, StaticDataSet.rowCount, StaticDataSet.field, StaticDataSet.fieldAt,
      scalarFieldValue, putRat, dsValuesGet, scalarTrace, scalarLoop]

/-- C5 counterexample: a scalar whose required value field is missing at the
row level of its non-empty, registered backing dataset is not skipped: the
missing read is recorded as 0 and the indicator is still emitted with value 0
(here scalar `s1` wants field `v` of a dataset that only has `w`), alongside
the healthy scalar `s2`. -/
theorem scalar_missing_field_renders_zero_cex :
    scalarTraces {} [("d1", NewStaticDataSet [("w", [.int64 9])]),
                     ("d2", NewStaticDataSet [("u", [.int64 11])])]
      [{ name := "s1", dataSet := "d1", value := "v" },
       { name := "s2", dataSet := "d2", value := "u" }] =
      .ok [{ name := "s1", mode := "number", column := 0,
             domainLo := 0, domainHi := 1/2, value := 0 },
           { name := "s2", mode := "number", column := 1,
             domainLo := 1/2, domainHi := 1, value := 11 }] := by
  norm_num +decide [scalarTraces, datasetFieldsUsed, addUsed, scalarDsValues, readScalarRow,
    StaticDataSet.next, StaticDataSet.rowCount, StaticDataSet.field, StaticDataSet.fieldAt,
    scalarFieldValue, putRat, dsValuesGet, scalarTrace, scalarLoop, NewStaticDataSet]

/-- C5 amended: a scalar whose required value field is missing at the row
level of its non-empty, registered backing dataset is logged but still
rendered, with value 0 (the missing read is recorded as 0, so the later
presence check succeeds); all other scalars render normally.  A scalar emits
no indicator only when its backing dataset is unregistered, has no row
available, or errors on read, or when its configured delta value is
missing. -/
theorem scalar_missing_field_zero (a b : Int) :
    scalarTraces {} [("d1", NewStaticDataSet [("w", [.int64 a])]),
                     ("d2", NewStaticDataSet [("u", [.int64 b])])]
      [{ name := "s1", dataSet := "d1", value := "v" },
       { name := "s2", dataSet := "d2", value := "u" }] =
      .ok [{ name := "s1", mode := "number", column := 0,
             domainLo := 0, domainHi := 1/2, value := 0 },
           { name := "s2", mode := "number", column := 1,
             domainLo := 1/2, domainHi := 1, value := (b : Rat) }] := by
  norm_num +decide [scalarTraces, datasetFieldsUsed, addUsed, scalarDsValues, readScalarRow,
    StaticDataSet.next, StaticDataSet.rowCount, StaticDataSet.field, StaticDataSet.fieldAt,
    scalarFieldValue, putRat, dsValuesGet, scalarTrace, scalarLoop, NewStaticDataSet]

/-- C6 counterexample: a timestamp group-field value and its RFC3339 text do
not compare equal in the series fixed-group-value filter: the canonical text
of the timestamp equals the configured group value, yet the row is filtered
out and the definition produces no trace at all. -/
theorem group_filter_raw_equality_cex :
    stringify (.time (mkUTC 2023 5 8 10 0 0)) = "2023-05-08T10:00:00Z" ∧
    seriesTracesForDataSet {}
      (NewStaticDataSet [("g", [.time (mkUTC 2023 5 8 10 0 0)]),
                         ("lab", [.str "l1"]), ("val", [.int64 7])])
      [{ type := .bar, name := "n", dataSet := "d", labels := "lab",
         values := "val", groupField := "g",
         groupValue := "2023-05-08T10:00:00Z" }] = .ok [] := by
  exact ⟨rfl, rfl⟩

/-- C6 amended: only the derive join lookup compares keys through the
canonical text projection, so a timestamp key on one side matches its RFC3339
text on the other; the series fixed-group-value filter instead compares the
raw field value against the group value with Go interface equality, which
holds exactly when the field value is that very string, so heterogeneous
representations never match there. -/
theorem key_comparison_semantics :
    (ComputeBinaryPredicate diff2
      ⟨⟨"left", "k", "v"⟩,
        NewStaticDataSet [("k", [.time (mkUTC 2023 5 8 10 0 0)]), ("v", [.int64 10])]⟩
      ⟨⟨"right", "k", "v"⟩,
        NewStaticDataSet [("k", [.str "2023-05-08T10:00:00Z"]), ("v", [.int64 4])]⟩
     = .ok (NewStaticDataSet [("field", [.time (mkUTC 2023 5 8 10 0 0)]),
                              ("value", [.int64 6])])) ∧
    (∀ (v : GoVal) (gv : String), goEqString v gv = true ↔ v = .str gv) := by
  constructor
  · rfl
  · intro v gv
    cases v <;> simp [goEqString]

/-- C3 counterexample: a successful derive writes its two output columns
under the names `field` and `value`, not `key` and `value`. -/
theorem derive_fields_named_field_value_cex :
    ComputeBinaryPredicate diff2
      ⟨⟨"left", "k", "v"⟩, NewStaticDataSet [("k", [.str "B"]), ("v", [.int64 5])]⟩
      ⟨⟨"right", "k", "v"⟩, NewStaticDataSet [("k", [.str "B"]), ("v", [.int64 2])]⟩
    = .ok (NewStaticDataSet [("field", [.str "B"]), ("value", [.int64 3])]) ∧
    ([("field", [GoVal.str "B"]), ("value", [GoVal.int64 3])].map Prod.fst
      ≠ ["key", "value"]) := by
  exact ⟨rfl, by decide⟩

/-- Every successful `streamLeftStep` keeps the output columns either empty or
exactly the pair `field`, `value`. -/
theorem streamLeftStep_fields (pred : GoVal → GoVal → Except String GoVal)
    (def1 : ComputeDataSetDef) (rows2 : List (String × GoVal)) :
    ∀ (data : List (String × List GoVal)) (r : List (String × GoVal)) data2,
      (data.map Prod.fst = [] ∨ data.map Prod.fst = ["field", "value"]) →
      streamLeftStep pred def1 rows2 data r = .ok data2 →
      (data2.map Prod.fst = [] ∨ data2.map Prod.fst = ["field", "value"]) := by
  intro data r data2 hP h
  simp only [streamLeftStep] at h
  split at h
  · cases h
  · split at h
    · cases h
      exact hP
    · split at h
      · cases h
      · split at h
        · cases h
        · cases h
          rcases hP with hP | hP
          · have hdata : data = [] := List.map_eq_nil_iff.mp hP
            subst hdata
            right
            simp [goMapAppend]
          · right
            have h1 : (goMapAppend data "field" (rowField r def1.joinField)).map Prod.fst
                = data.map Prod.fst := by
              rw [goMapAppend_map_fst, hP]
              simp
            rw [goMapAppend_map_fst, h1, hP]
            simp

/-- C3 amended: a successful derive whose output is non-empty has exactly the
two fields `field` (the matched join key) and `value` (the predicate result);
a derive that matches no left row yields a dataset with no fields at all. -/
theorem derive_output_fields (pred : GoVal → GoVal → Except String GoVal)
    (in1 in2 : ComputeInput) (out : StaticDataSet)
    (h : ComputeBinaryPredicate pred in1 in2 = .ok out) :
    out.data = [] ∨ out.data.map Prod.fst = ["field", "value"] := by
  simp only [ComputeBinaryPredicate] at h
  split at h
  next => cases h
  next rows2 hm =>
    split at h
    next => cases h
    next =>
      split at h
      next => cases h
      next data hsl =>
        split at h
        next => cases h
        next =>
          cases h
          rw [streamLeft] at hsl
          have hinv := foldlM_except_inv
            (streamLeftStep pred ({ in1 with dataSet := in1.dataSet.reset }).def_ rows2)
            (fun d => d.map Prod.fst = [] ∨ d.map Prod.fst = ["field", "value"])
            (fun b a b2 hb hok => streamLeftStep_fields pred _ rows2 b a b2 hb hok)
            _ [] data (by simp) hsl
          rcases hinv with hinv | hinv
          · left
            exact List.map_eq_nil_iff.mp hinv
          · right
            exact hinv

/-- C3 amended witness: the concrete one-match derive instantiates the field
name disjunction. -/
theorem derive_output_fields_witness :
    (NewStaticDataSet [("field", [GoVal.str "B"]), ("value", [GoVal.int64 3])]).data = [] ∨
    (NewStaticDataSet [("field", [GoVal.str "B"]),
      ("value", [GoVal.int64 3])]).data.map Prod.fst = ["field", "value"] :=
  derive_output_fields diff2
    ⟨⟨"left", "k", "v"⟩, NewStaticDataSet [("k", [.str "B"]), ("v", [.int64 5])]⟩
    ⟨⟨"right", "k", "v"⟩, NewStaticDataSet [("k", [.str "B"]), ("v", [.int64 2])]⟩
    _ (by rfl)

/-- C9: `isLatest` answers true when no dated artifact for the name exists yet
(an empty glob leaves the candidate alone in the sorted list), and false as
soon as some lexicographically later dated artifact for the name exists on
disk; by definition it sorts the candidate into the enumerated existing paths
and checks that it sorts last. -/
theorem isLatest_first_and_later :
    (∀ fname : String, organizerIsLatest [] fname = true) ∧
    (∀ (existing : List String) (fname p : String),
        p ∈ existing → fname < p → organizerIsLatest existing fname = false) := by
  constructor
  · intro f
    simp [organizerIsLatest, sortStrings, List.insertionSort, List.orderedInsert,
      List.getLastD]
  · intro existing f p hp hlt
    have hsorted : (sortStrings (existing ++ [f])).Sorted (· ≤ ·) :=
      List.sorted_insertionSort _ _
    have hmem : p ∈ sortStrings (existing ++ [f]) := by
      unfold sortStrings
      rw [List.mem_insertionSort]
      simp [hp]
    have hle := le_getLastD_of_sorted _ "" hsorted p hmem
    unfold organizerIsLatest
    rw [beq_eq_false_iff_ne]
    intro heq
    rw [heq] at hle
    exact absurd hlt (not_lt.mpr hle)

/-- C9 witness: the very first artifact for a name is latest; a later dated
path on disk makes an earlier candidate not latest. -/
theorem isLatest_first_and_later_witness :
    organizerIsLatest [] "base/2023/05/08/x.json" = true ∧
    organizerIsLatest ["base/2023/05/09/x.json"] "base/2023/05/08/x.json" = false :=
  ⟨isLatest_first_and_later.1 "base/2023/05/08/x.json",
   isLatest_first_and_later.2 ["base/2023/05/09/x.json"] "base/2023/05/08/x.json"
     "base/2023/05/09/x.json" (by simp)
     (by rw [String.lt_iff_toList_lt]; decide)⟩

/-- Scanning rows into two same-display-name definitions extends the one
shared accumulator, first with the first definition's projections, then with
the second's, per row; the stored creating definition stays the first one. -/
theorem seriesFold_shared (s1 s2 : SeriesDef)
    (hg1 : s1.groupField = "") (hg2 : s2.groupField = "")
    (hn : s2.name = s1.name) (hl1 : s1.labels ≠ "") (hl2 : s2.labels ≠ "") :
    ∀ (rows : List (List (String × GoVal))) (L V : List GoVal),
      rows.foldl (seriesRow [s1, s2]) [⟨s1.name, s1, L, V⟩] =
        [⟨s1.name, s1,
          L ++ pairColumn (fun r => normalizeValue (rowField r s1.labels))
            (fun r => normalizeValue (rowField r s2.labels)) rows,
          V ++ pairColumn (fun r => normalizeValue (rowField r s1.values))
            (fun r => normalizeValue (rowField r s2.values)) rows⟩] := by
  intro rows
  induction rows with
  | nil => intro L V; simp [pairColumn]
  | cons r rest ih =>
    intro L V
    have hstep : seriesRow [s1, s2] [⟨s1.name, s1, L, V⟩] r =
        [⟨s1.name, s1,
          L ++ [normalizeValue (rowField r s1.labels), normalizeValue (rowField r s2.labels)],
          V ++ [normalizeValue (rowField r s1.values), normalizeValue (rowField r s2.values)]⟩] := by
      simp [seriesRow, seriesStep, seriesRowName, addToSeries, hg1, hg2, hn, hl1, hl2]
    rw [List.foldl_cons, hstep, ih]
    simp [pairColumn]

/-- C10: within the series pass, accumulators are keyed by display name alone
across all definitions referencing the dataset: two definitions with the same
fixed name feed one shared accumulator, whose rows interleave both
definitions' projections in scan order, and the single resulting trace takes
its shape, color and stored definition from the definition that first created
the accumulator (here the first, a bar with its own color), not from the
second. -/
theorem series_shared_accumulator (cfg : PlotConfig) (ds : StaticDataSet)
    (s1 s2 : SeriesDef) (r : List (String × GoVal)) (rest : List (List (String × GoVal)))
    (he : ds.iterErr = Option.none) (hrows : ds.rows = r :: rest)
    (hg1 : s1.groupField = "") (hg2 : s2.groupField = "")
    (hn : s2.name = s1.name) (hl1 : s1.labels ≠ "") (hl2 : s2.labels ≠ "")
    (ht : s1.type = .bar) :
    seriesTracesForDataSet cfg ds [s1, s2] =
      .ok [{ type := "bar", name := s1.name, orient := some "v",
             x := pairColumn (fun row => normalizeValue (rowField row s1.labels))
               (fun row => normalizeValue (rowField row s2.labels)) (r :: rest),
             y := pairColumn (fun row => normalizeValue (rowField row s1.values))
               (fun row => normalizeValue (rowField row s2.values)) (r :: rest),
             color := if cfg.maybeLookupColor s1.color ≠ ""
               then some (cfg.maybeLookupColor s1.color) else Option.none,
             hoverTemplate := s1.hoverTemplate }] := by
  have hstep0 : seriesRow [s1, s2] [] r =
      [⟨s1.name, s1,
        [normalizeValue (rowField r s1.labels), normalizeValue (rowField r s2.labels)],
        [normalizeValue (rowField r s1.values), normalizeValue (rowField r s2.values)]⟩] := by
    simp [seriesRow, seriesStep, seriesRowName, addToSeries, hg1, hg2, hn, hl1, hl2]
  simp only [seriesTracesForDataSet, reset_rows, reset_iterErr, hrows, he,
    List.foldl_cons, hstep0, seriesFold_shared s1 s2 hg1 hg2 hn hl1 hl2 rest]
  simp [sortSeries, List.insertionSort, renderSeries, ht, pairColumn]
  rfl

/-- C10 witness: two bar/line definitions named `n` over a two-row dataset
produce the one shared bar trace with interleaved columns and the first
definition's color. -/
theorem series_shared_accumulator_witness :
    seriesTracesForDataSet { colors := [("red", "#f00")] }
      (NewStaticDataSet [("la", [.str "x1", .str "x2"]), ("va", [.int64 1, .int64 2]),
                         ("lb", [.str "y1", .str "y2"]), ("vb", [.int64 3, .int64 4])])
      [{ type := .bar, name := "n", color := "red", dataSet := "d",
         labels := "la", values := "va", order := 0 },
       { type := .line, name := "n", color := "blue", dataSet := "d",
         labels := "lb", values := "vb", order := 1 }] =
      .ok [{ type := "bar", name := "n", orient := some "v",
             x := pairColumn (fun row => normalizeValue (rowField row "la"))
               (fun row => normalizeValue (rowField row "lb"))
               ((NewStaticDataSet [("la", [.str "x1", .str "x2"]), ("va", [.int64 1, .int64 2]),
                  ("lb", [.str "y1", .str "y2"]), ("vb", [.int64 3, .int64 4])]).rows),
             y := pairColumn (fun row => normalizeValue (rowField row "va"))
               (fun row => normalizeValue (rowField row "vb"))
               ((NewStaticDataSet [("la", [.str "x1", .str "x2"]), ("va", [.int64 1, .int64 2]),
                  ("lb", [.str "y1", .str "y2"]), ("vb", [.int64 3, .int64 4])]).rows),
             color := if ({ colors := [("red", "#f00")] } : PlotConfig).maybeLookupColor "red" ≠ ""
               then some (({ colors := [("red", "#f00")] } : PlotConfig).maybeLookupColor "red")
               else Option.none,
             hoverTemplate := "" }] := by
  have h := series_shared_accumulator { colors := [("red", "#f00")] }
    (NewStaticDataSet [("la", [.str "x1", .str "x2"]), ("va", [.int64 1, .int64 2]),
                       ("lb", [.str "y1", .str "y2"]), ("vb", [.int64 3, .int64 4])])
    { type := .bar, name := "n", color := "red", dataSet := "d",
      labels := "la", values := "va", order := 0 }
    { type := .line, name := "n", color := "blue", dataSet := "d",
      labels := "lb", values := "vb", order := 1 }
    [("la", .str "x1"), ("va", .int64 1), ("lb", .str "y1"), ("vb", .int64 3)]
    [[("la", .str "x2"), ("va", .int64 2), ("lb", .str "y2"), ("vb", .int64 4)]]
    rfl rfl rfl rfl rfl (by decide) (by decide) rfl
  rw [h]
  rfl

end Ashby
